import Mathlib

/-!
Verification of the YouTube transcript/summarization service (`main.py`)
against its natural-language specification.

The embedding models, faithfully to the Python source:
  * `get_youtube_transcript` — caption fetching with its swallow-all-errors
    policy (main.py lines 35-53);
  * `get_video_info` — the metadata probe (lines 55-79);
  * `save_transcript` — flat-file persistence (lines 132-139);
  * `summarize_video` — the orchestrating endpoint (lines 141-174);
  * `dashboard` — the listing endpoint (lines 176-194).
External collaborators (captions service, yt-dlp, Whisper, GPT) are
modelled as an explicit environment record describing what each call
would return or raise on the run under consideration, and the local
filesystem (the scratch audio file and the `transcripts/` directory) as
explicit state threaded through the orchestrator.

Python string operations used by the source (`strip`, `startswith`,
`replace`, line splitting) are defined here on `String.data`
(Python strings are sequences of code points, i.e. `List Char`), so that
proofs can proceed by list induction and concrete runs evaluate by
`decide`.
-/

/-- Python `str.strip()`: remove whitespace from both ends.
(Python strips a slightly larger set of Unicode whitespace code points;
the difference is irrelevant to every string this program produces.) -/
def pyStrip (s : String) : String :=
  ⟨((s.data.dropWhile Char.isWhitespace).reverse.dropWhile Char.isWhitespace).reverse⟩

/-- Leading-segment test on character lists: `hasLead p s` is true iff
`p` occurs at the very start of `s` (used for Python `str.startswith`
and for `str.replace` occurrence matching). -/
def hasLead : List Char → List Char → Bool
  | [], _ => true
  | _ :: _, [] => false
  | p :: ps, c :: cs => p == c && hasLead ps cs

/-- Python `s.startswith(pre)`. -/
def pyStartsWith (s pre : String) : Bool :=
  hasLead pre.data s.data

/-- Python `str.replace(old, new)` on code-point lists: replace every
non-overlapping occurrence of `pat`, scanning left to right.  (Python's
`replace` with an empty pattern inserts `repl` everywhere; the program
only ever replaces non-empty literals, and the guard keeps the Lean
function total in the same way.) -/
def pyReplaceAux (pat repl : List Char) : Nat → List Char → List Char
  | 0, [] => []
  | 0, c :: cs =>
    if pat ≠ [] ∧ hasLead pat (c :: cs) then
      repl ++ pyReplaceAux pat repl (pat.length - 1) cs
    else
      c :: pyReplaceAux pat repl 0 cs
  | _ + 1, [] => []
  | k + 1, _ :: cs => pyReplaceAux pat repl k cs

/-- Python `str.replace(old, new)` on code-point lists, via
`pyReplaceAux` with nothing left to skip. -/
def pyReplaceL (pat repl : List Char) (s : List Char) : List Char :=
  pyReplaceAux pat repl 0 s

/-- Python `s.replace(pat, repl)` packaged on `String`. -/
def pyReplace (s pat repl : String) : String :=
  ⟨pyReplaceL pat.data repl.data s.data⟩

/-- Split a code-point list on newline characters, the way Python file
iteration / `readline` exposes a file's contents.  (Python keeps the
terminating `"\n"` on each yielded line; every use in the program then
applies `strip` or `startswith`, for which the trailing newline is
immaterial, so lines are modelled without their terminators.) -/
def splitLines : List Char → List (List Char)
  | [] => [[]]
  | c :: cs =>
    if c = '\n' then [] :: splitLines cs
    else
      match splitLines cs with
      | [] => [[c]]
      | l :: ls => (c :: l) :: ls

/-! ### Caption fetcher (main.py lines 35-53) -/

/-- Exceptions distinguished by the fetcher's `except` clauses. -/
inductive PyErr where
  /-- `TranscriptsDisabled` from the captions service. -/
  | transcriptsDisabled
  /-- `NoTranscriptFound` from the captions service. -/
  | noTranscriptFound
  /-- `StopIteration` from `next(iter(transcripts))` on an empty listing. -/
  | stopIteration
  /-- Any other exception (transport or parsing failure), with its message. -/
  | other (msg : String)
deriving Repr, DecidableEq

/-- One caption track as the captions service presents it: the
`is_generated` flag, the language code, and what `fetch()` would do for
it — return its segments' text fields in natural order, or raise. -/
structure CaptionTrack where
  is_generated : Bool
  language_code : String
  fetch : Except PyErr (List String)
deriving Repr

/-- What `YouTubeTranscriptApi.list_transcripts(video_id)` does on this
run: return a track listing, or raise. -/
inductive ListOutcome where
  | ok (tracks : List CaptionTrack)
  | raise (e : PyErr)
deriving Repr

/-- Body of `get_youtube_transcript` before its `except` clauses
(main.py lines 38-48): pick the first non-generated track if any,
otherwise the first track (`next(iter(transcripts))`, which raises
`StopIteration` on an empty listing), fetch it, and join the segment
texts with single spaces. -/
def get_youtube_transcript_body (o : ListOutcome) : Except PyErr (String × String) :=
  match o with
  | .raise e => .error e
  | .ok tracks =>
    let preferred :=
      match tracks.find? (fun tr => !tr.is_generated) with
      | some tr => some tr
      | none => tracks.head?
    match preferred with
    | none => .error .stopIteration
    | some tr =>
      match tr.fetch with
      | .error e => .error e
      | .ok entries => .ok (String.intercalate " " entries, tr.language_code)

/-- `get_youtube_transcript` (main.py lines 35-53): both `except`
clauses — `(TranscriptsDisabled, NoTranscriptFound)` and the catch-all
`Exception` — turn any raised error into `(None, None)`. -/
def get_youtube_transcript (o : ListOutcome) : Option (String × String) :=
  match get_youtube_transcript_body o with
  | .ok r => some r
  | .error _ => none

/-! ### Metadata probe (main.py lines 55-79) -/

/-- What the `yt-dlp --dump-json` probe does on this run: yield a
metadata record with optional `duration` and `language` fields, or fail
in any way (nonzero exit, unparsable output, ...). -/
inductive ProbeOutcome where
  | ok (duration : Option Int) (language : Option String)
  | failure
deriving Repr, DecidableEq

/-- `get_video_info` (main.py lines 55-79): on success,
`int(duration) if duration is not None else 0` and the language field;
on any exception, `(0, None)`. -/
def get_video_info (o : ProbeOutcome) : Int × Option String :=
  match o with
  | .ok d l => (d.getD 0, l)
  | .failure => (0, none)

/-! ### Persistence (main.py lines 29-30, 132-139) -/

/-- A wall-clock instant as `datetime.datetime.now()` yields it, down to
microseconds (the component `strftime("%Y%m%d_%H%M%S")` discards). -/
structure DateTime where
  year : Nat
  month : Nat
  day : Nat
  hour : Nat
  minute : Nat
  second : Nat
  micro : Nat
deriving Repr, DecidableEq

/-- Zero-pad a numeral to two digits, as `strftime` does for
`%m %d %H %M %S`. -/
def pad2 (n : Nat) : String :=
  if n < 10 then "0" ++ toString n else toString n

/-- Zero-pad a numeral to four digits, as `strftime` does for `%Y`. -/
def pad4 (n : Nat) : String :=
  if n < 10 then "000" ++ toString n
  else if n < 100 then "00" ++ toString n
  else if n < 1000 then "0" ++ toString n
  else toString n

/-- `datetime.now().strftime("%Y%m%d_%H%M%S")` (main.py line 134):
second resolution, microseconds dropped. -/
def strftime_ts (t : DateTime) : String :=
  pad4 t.year ++ pad2 t.month ++ pad2 t.day ++ "_" ++
    pad2 t.hour ++ pad2 t.minute ++ pad2 t.second

/-- The `transcripts/` directory: filenames paired with file contents.
`open(path, "w")` truncates, so a write to an existing name replaces
that file's contents; otherwise it creates a new file. -/
abbrev Store : Type := List (String × String)

/-- Contents `open(path, "w")` leaves for a given name (replace if the
name exists, create otherwise). -/
def writeFile (store : Store) (fname content : String) : Store :=
  if (List.any store fun p => p.1 = fname) then
    List.map (fun p => if p.1 = fname then (fname, content) else p) store
  else store ++ [(fname, content)]

/-- Read a file's contents from the directory by name. -/
def lookupFile : Store → String → Option String
  | [], _ => none
  | p :: ps, f => if p.1 = f then some p.2 else lookupFile ps f

/-- The names `os.listdir("transcripts")` yields (unordered set; the
association list's key order is immaterial once `dashboard` sorts). -/
def listdir (store : Store) : List String :=
  List.map Prod.fst store

/-- Body of the file `save_transcript` writes (main.py lines 136-138):
`"[Source: {source}]\n\n"` then `"Summary:\n{summary}\n\n---\n\n{text}"`. -/
def transcriptContent (text summary source : String) : String :=
  "[Source: " ++ source ++ "]\n\nSummary:\n" ++ summary ++ "\n\n---\n\n" ++ text

/-- `save_transcript` (main.py lines 132-139): path
`transcripts/{video_id}_{timestamp}.txt`, written with `open(path, "w")`.
Returns the path as the endpoint reports it and the updated directory. -/
def save_transcript (store : Store) (video_id text summary source : String)
    (now : DateTime) : String × Store :=
  let timestamp := strftime_ts now
  let fname := video_id ++ "_" ++ timestamp ++ ".txt"
  ("transcripts/" ++ fname, writeFile store fname (transcriptContent text summary source))

/-! ### Listing endpoint (main.py lines 176-194) -/

/-- One entry the dashboard renders per stored file. -/
structure Entry where
  filename : String
  source : String
  summary : String
deriving Repr, DecidableEq

/-- Python string comparison (`sorted` key order): lexicographic on code
points. -/
def lexLt : List Char → List Char → Bool
  | _, [] => false
  | [], _ :: _ => true
  | a :: as, b :: bs =>
    if a < b then true else if b < a then false else lexLt as bs

/-- Insert into a descending-sorted list, keeping it descending. -/
def insertDesc (x : String) : List String → List String
  | [] => [x]
  | y :: ys => if lexLt y.data x.data then x :: y :: ys else y :: insertDesc x ys

/-- Python `sorted(names, reverse=True)`: descending lexicographic
order of the filenames. -/
def sortDesc : List String → List String
  | [] => []
  | x :: xs => insertDesc x (sortDesc xs)

/-- Scan for the first line starting with `"Summary:"` and yield the
following line stripped, as the dashboard's read loop does
(main.py lines 184-188); `""` if no such line follows. -/
def findSummary : List String → String
  | [] => ""
  | l :: rest =>
    if pyStartsWith l "Summary:" then pyStrip (rest.headD "") else findSummary rest

/-- Parse one stored file the way the dashboard does (main.py lines
182-193): first line stripped, `"[Source:"` and `"]"` deleted and the
remainder stripped for the source; the line after the first
`"Summary:"`-led line, stripped, for the summary. -/
def parse_entry (fname content : String) : Entry :=
  let lines : List String := List.map (fun l => (⟨l⟩ : String)) (splitLines content.data)
  let first_line := pyStrip (lines.headD "")
  let source := pyStrip (pyReplace (pyReplace first_line "[Source:" "") "]" "")
  let summary := findSummary lines.tail
  ⟨fname, source, summary⟩

/-- The dashboard endpoint (main.py lines 176-194): list the directory,
sort names descending, parse each file into an entry. -/
def dashboard (store : Store) : List Entry :=
  List.map (fun f => parse_entry f ((lookupFile store f).getD "")) (sortDesc (listdir store))

/-! ### Orchestrator (main.py lines 141-174) -/

/-- What each external call of one `/summarize` request would do,
were it reached: the captions listing, the metadata probe, the audio
download (`.ok` = file written, `.error msg` = raised with `str(e) = msg`),
the Whisper transcription, the GPT summarization, and the wall clock at
`save_transcript` time. -/
structure Env where
  listing : ListOutcome
  probe : ProbeOutcome
  download : Except String Unit
  transcribe : Except String String
  summarize : Except String String
  now : DateTime

/-- Local state the request reads and writes: whether the scratch audio
file (`audio.mp3`) exists, the `transcripts/` directory, and a ghost
flag recording whether `get_video_info` was invoked on this run. -/
structure St where
  scratch : Bool
  store : Store
  probed : Bool
deriving Repr, DecidableEq

/-- Outcome of the endpoint as the HTTP layer sees it. -/
inductive Result where
  /-- the JSON body `{"video_id", "source", "summary", "file"}`. -/
  | ok (video_id source summary file : String)
  /-- an `HTTPException(status_code, detail)` raised by the handler. -/
  | httpError (status : Nat) (detail : String)
  /-- an exception escaping the handler uncaught (FastAPI's generic
  internal-server-error path; the message is not sent as `detail`). -/
  | unhandled (msg : String)
deriving Repr, DecidableEq

/-- Python truthiness of `text` at main.py line 150: `None` and `""`
are falsy. -/
def truthyStr : Option String → Bool
  | none => false
  | some s => !(s == "")

/-- Spanish duration-limit message (main.py line 156). -/
def limitMsgEs : String :=
  "La versión gratuita solo admite audios de menos de 10 minutos."

/-- English duration-limit message (main.py line 158). -/
def limitMsgEn : String :=
  "Free version only supports less than 10min audios."

/-- Tail shared by both paths (main.py lines 172-174): summarize, then
persist, then return the JSON body.  `summarize_text` is called outside
the `try` block, so its failure escapes the handler uncaught. -/
def finishRun (video_id text source : String) (env : Env) (st : St) : Result × St :=
  match env.summarize with
  | .error e => (.unhandled e, st)
  | .ok summary =>
    let saved := save_transcript st.store video_id text summary source env.now
    (.ok video_id source summary saved.1, { st with store := saved.2 })

/-- The `/summarize` endpoint `summarize_video` (main.py lines 141-174),
given the request's `video_id`, the run's environment and the local
state. -/
def summarize_video (req_video_id : String) (env : Env) (st : St) : Result × St :=
  let video_id := pyStrip req_video_id
  if video_id = "" then (.httpError 400 "Missing video_id", st)
  else
    let fetched := get_youtube_transcript env.listing
    let textOpt : Option String := Option.map Prod.fst fetched
    if truthyStr textOpt then
      finishRun video_id (textOpt.getD "") "youtube" env st
    else
      let st1 := { st with probed := true }
      let info := get_video_info env.probe
      let duration_sec := info.1
      let lang_code := info.2
      if duration_sec ≠ 0 ∧ duration_sec > 600 then
        (.httpError 400
          (if pyStartsWith (lang_code.getD "") "es" then limitMsgEs else limitMsgEn), st1)
      else
        match env.download with
        | .error e => (.httpError 500 e, st1)
        | .ok _ =>
          let st2 := { st1 with scratch := true }
          match env.transcribe with
          | .error e => (.httpError 500 e, st2)
          | .ok text =>
            let st3 := { st2 with scratch := false }
            finishRun video_id text "whisper" env st3

/-! ### Claims about the caption fetcher -/

/-- Claim C4: for every identifier, the caption fetcher selects a
human-authored (non-auto-generated) track when at least one is present
— namely the first such track in the listing — and otherwise selects
the first available track; it returns that track's text segments
concatenated in their natural order with single-space separators
(together with the track's language code). -/
theorem caption_track_selection (tracks : List CaptionTrack) (tr : CaptionTrack)
    (es : List String) :
    ((tracks.find? fun t => !t.is_generated) = some tr → tr.fetch = .ok es →
      get_youtube_transcript (.ok tracks) =
        some (String.intercalate " " es, tr.language_code)) ∧
    ((∀ t ∈ tracks, t.is_generated = true) → tracks.head? = some tr → tr.fetch = .ok es →
      get_youtube_transcript (.ok tracks) =
        some (String.intercalate " " es, tr.language_code)) := by
  constructor
  · intro hfind hfetch
    simp [get_youtube_transcript, get_youtube_transcript_body, hfind, hfetch]
  · intro hall hhead hfetch
    have hfind : (tracks.find? fun t => !t.is_generated) = none := by
      rw [List.find?_eq_none]
      intro t ht
      simp [hall t ht]
    simp [get_youtube_transcript, get_youtube_transcript_body, hfind, hhead, hfetch]

/-- Witness for C4 on concrete listings: a generated track followed by
a human track (the human one wins), and a listing with only a generated
track (first-of-one wins). -/
theorem caption_track_selection_witness :
    get_youtube_transcript
        (.ok [⟨true, "en", .ok ["hello", "world"]⟩, ⟨false, "de", .ok ["guten", "Tag"]⟩]) =
      some ("guten Tag", "de") ∧
    get_youtube_transcript (.ok [⟨true, "en", .ok ["auto", "only"]⟩]) =
      some ("auto only", "en") := by
  constructor
  · exact (caption_track_selection
      [⟨true, "en", .ok ["hello", "world"]⟩, ⟨false, "de", .ok ["guten", "Tag"]⟩]
      ⟨false, "de", .ok ["guten", "Tag"]⟩ ["guten", "Tag"]).1 rfl rfl
  · exact (caption_track_selection [⟨true, "en", .ok ["auto", "only"]⟩]
      ⟨true, "en", .ok ["auto", "only"]⟩ ["auto", "only"]).2
      (by intro t ht; simp only [List.mem_singleton] at ht; subst ht; rfl) rfl rfl

/-- Claim C5: every error raised inside the caption fetcher — transport
or parsing failures included — produces the same "not available" signal
(`None, None`) as the no-captions exceptions, is never propagated to the
caller, and therefore sends the orchestrator down the fallback path
(the duration probe runs) rather than surfacing an error. -/
theorem caption_errors_swallowed (o : ListOutcome) (e : PyErr)
    (h : get_youtube_transcript_body o = .error e) :
    get_youtube_transcript o = none ∧
    get_youtube_transcript o = get_youtube_transcript (.raise .transcriptsDisabled) ∧
    ∀ (req : String) (env : Env) (st : St), pyStrip req ≠ "" → env.listing = o →
      (summarize_video req env st).2.probed = true := by
  have hnone : get_youtube_transcript o = none := by
    simp only [get_youtube_transcript]
    rw [h]
  refine ⟨hnone, by rw [hnone]; rfl, ?_⟩
  intro req env st hreq hlist
  subst hlist
  obtain ⟨l, p, dl, tr, sm, now⟩ := env
  simp only at hnone
  cases dl <;> cases tr <;> cases sm <;>
    (simp [summarize_video, hnone, truthyStr, hreq, finishRun]; try (split <;> rfl))

/-- Witness for C5: a transport failure (`.other`) raised by the
listing call yields the `(None, None)` signal, and a concrete run with
that listing probes the metadata (takes the fallback). -/
theorem caption_errors_swallowed_witness :
    get_youtube_transcript (.raise (.other "connection reset")) = none ∧
    (summarize_video "abc123"
        ⟨.raise (.other "connection reset"), .failure, .ok (), .ok "t", .ok "s",
          ⟨2025, 1, 2, 3, 4, 5, 6⟩⟩
        ⟨false, [], false⟩).2.probed = true := by
  have h := caption_errors_swallowed (.raise (.other "connection reset"))
    (.other "connection reset") rfl
  exact ⟨h.1, h.2.2 "abc123"
    ⟨.raise (.other "connection reset"), .failure, .ok (), .ok "t", .ok "s",
      ⟨2025, 1, 2, 3, 4, 5, 6⟩⟩
    ⟨false, [], false⟩ (by decide) rfl⟩

/-! ### Claims about the orchestrator -/

/-- Claim C2: for an identifier with no caption tracks the fallback
path is taken; when the probed duration exceeds 600 seconds the request
fails with status 400, the message being the exact Spanish string when
the probed language code starts with "es" and the exact English string
otherwise, and the stored records are untouched by the rejection (the
returned state keeps `st.store`, and the scratch flag, unchanged). -/
theorem fallback_duration_limit_localized (req : String) (env : Env) (st : St)
    (d : Int) (l : Option String)
    (hreq : pyStrip req ≠ "") (hl : env.listing = .ok [])
    (hp : env.probe = .ok (some d) l) (hd : 600 < d) :
    summarize_video req env st =
      (.httpError 400 (if pyStartsWith (l.getD "") "es" then limitMsgEs else limitMsgEn),
       { st with probed := true }) := by
  obtain ⟨li, p, dl, tr, sm, now⟩ := env
  simp only at hl hp
  subst hl; subst hp
  have h0 : d ≠ 0 := by omega
  simp [summarize_video, truthyStr, hreq, get_youtube_transcript,
    get_youtube_transcript_body, get_video_info, h0, hd]

/-- Witness for C2, the spec's own scenario: identifier "xyz789", no
captions, probed duration 700 s, language "es" — a 400 with the exact
Spanish message and no change to the stored records. -/
theorem fallback_duration_limit_localized_witness :
    summarize_video "xyz789"
        ⟨.ok [], .ok (some 700) (some "es"), .ok (), .ok "t", .ok "s",
          ⟨2025, 1, 2, 3, 4, 5, 6⟩⟩
        ⟨false, [], false⟩ =
      (.httpError 400 limitMsgEs, ⟨false, [], true⟩) := by
  have h := fallback_duration_limit_localized "xyz789"
    ⟨.ok [], .ok (some 700) (some "es"), .ok (), .ok "t", .ok "s", ⟨2025, 1, 2, 3, 4, 5, 6⟩⟩
    ⟨false, [], false⟩ 700 (some "es") (by decide) rfl rfl (by decide)
  exact h.trans (by decide)

/-- Claim C9: on a fallback run that succeeds (download, transcription
and summarization all succeed and the duration policy does not reject),
the scratch audio file is deleted after transcription: when the request
returns successfully the scratch file no longer exists. -/
theorem fallback_success_deletes_scratch (req : String) (env : Env) (st : St)
    (t s : String)
    (hreq : pyStrip req ≠ "")
    (hfb : truthyStr (Option.map Prod.fst (get_youtube_transcript env.listing)) = false)
    (hdur : ¬((get_video_info env.probe).1 ≠ 0 ∧ (get_video_info env.probe).1 > 600))
    (hdl : env.download = .ok ()) (htr : env.transcribe = .ok t)
    (hsm : env.summarize = .ok s) :
    (summarize_video req env st).2.scratch = false ∧
    ∃ file, (summarize_video req env st).1 = .ok (pyStrip req) "whisper" s file := by
  obtain ⟨li, p, dl, tr, sm, now⟩ := env
  simp only at hfb hdur hdl htr hsm
  subst hdl; subst htr; subst hsm
  simp only [summarize_video, hfb, Bool.false_eq_true, if_false, if_neg hdur, finishRun,
    if_neg hreq]
  exact ⟨by trivial, _, rfl⟩

/-- Witness for C9, the spec's scenario "def456": no captions, 120 s
duration, successful download/transcription/summarization — the scratch
file is gone and the response is a whisper-sourced success. -/
theorem fallback_success_deletes_scratch_witness :
    (summarize_video "def456"
        ⟨.ok [], .ok (some 120) none, .ok (), .ok "spoken text", .ok "a summary",
          ⟨2025, 1, 2, 3, 4, 5, 6⟩⟩
        ⟨false, [], false⟩).2.scratch = false ∧
    ∃ file,
      (summarize_video "def456"
          ⟨.ok [], .ok (some 120) none, .ok (), .ok "spoken text", .ok "a summary",
            ⟨2025, 1, 2, 3, 4, 5, 6⟩⟩
          ⟨false, [], false⟩).1 = .ok "def456" "whisper" "a summary" file := by
  have h := fallback_success_deletes_scratch "def456"
    ⟨.ok [], .ok (some 120) none, .ok (), .ok "spoken text", .ok "a summary",
      ⟨2025, 1, 2, 3, 4, 5, 6⟩⟩
    ⟨false, [], false⟩ "spoken text" "a summary" (by decide) (by decide) (by decide) rfl rfl rfl
  exact h

/-- Claim C10: when the audio download succeeds but the transcription
call fails, the request fails with status 500 carrying the failure's
message, and the scratch audio file is not deleted — it still exists in
the returned state. -/
theorem transcription_failure_leaves_scratch (req : String) (env : Env) (st : St)
    (m : String)
    (hreq : pyStrip req ≠ "")
    (hfb : truthyStr (Option.map Prod.fst (get_youtube_transcript env.listing)) = false)
    (hdur : ¬((get_video_info env.probe).1 ≠ 0 ∧ (get_video_info env.probe).1 > 600))
    (hdl : env.download = .ok ()) (htr : env.transcribe = .error m) :
    summarize_video req env st =
      (.httpError 500 m, { st with probed := true, scratch := true }) := by
  obtain ⟨li, p, dl, tr, sm, now⟩ := env
  simp only at hfb hdur hdl htr
  subst hdl; subst htr
  simp [summarize_video, hfb, if_neg hdur, hreq]

/-- Witness for C10: download succeeds, Whisper fails with
"whisper quota exceeded" — a 500 with that exact message and the scratch
file still present. -/
theorem transcription_failure_leaves_scratch_witness :
    summarize_video "def456"
        ⟨.ok [], .ok (some 120) none, .ok (), .error "whisper quota exceeded", .ok "s",
          ⟨2025, 1, 2, 3, 4, 5, 6⟩⟩
        ⟨false, [], false⟩ =
      (.httpError 500 "whisper quota exceeded", ⟨true, [], true⟩) := by
  have h := transcription_failure_leaves_scratch "def456"
    ⟨.ok [], .ok (some 120) none, .ok (), .error "whisper quota exceeded", .ok "s",
      ⟨2025, 1, 2, 3, 4, 5, 6⟩⟩
    ⟨false, [], false⟩ "whisper quota exceeded" (by decide) (by decide) (by decide) rfl rfl
  exact h.trans (by decide)

/-- Counterexample to claim C1 as stated: the caption fetcher yields a
transcript (the empty string) from an available non-auto-generated
track, yet the orchestrator's `if not text:` truthiness test sends the
request down the fallback path — the duration policy IS evaluated
(ghost flag set), and the run is rejected with the duration message
instead of returning a "youtube"-sourced result. -/
theorem captioned_empty_transcript_cex :
    get_youtube_transcript (.ok [⟨false, "en", .ok []⟩]) = some ("", "en") ∧
    summarize_video "abc123"
        ⟨.ok [⟨false, "en", .ok []⟩], .ok (some 700) none, .ok (), .ok "t", .ok "s",
          ⟨2025, 1, 2, 3, 4, 5, 6⟩⟩
        ⟨false, [], false⟩ =
      (.httpError 400 limitMsgEn, ⟨false, [], true⟩) := by
  constructor
  · rfl
  · decide

/-- Claim C1 (amended): for every non-empty identifier for which the
caption fetcher yields a NON-EMPTY transcript from an available
non-auto-generated caption track, and whose summarization call
succeeds, the request returns a result whose `source` field is the
captioned-provenance value (`"youtube"` in the code, which the spec
names "captioned"), and the duration policy (metadata probe and
600-second check) is never evaluated on that run. -/
theorem captioned_nonempty_skips_duration_policy (req : String) (env : Env) (st : St)
    (tracks : List CaptionTrack) (tr : CaptionTrack) (es : List String) (s : String)
    (hreq : pyStrip req ≠ "")
    (hl : env.listing = .ok tracks)
    (hfind : (tracks.find? fun t => !t.is_generated) = some tr)
    (hfetch : tr.fetch = .ok es)
    (hne : String.intercalate " " es ≠ "")
    (hsm : env.summarize = .ok s) :
    ∃ file st2, summarize_video req env st = (.ok (pyStrip req) "youtube" s file, st2) ∧
      st2.probed = st.probed ∧ st2.scratch = st.scratch ∧
      st2.store = (save_transcript st.store (pyStrip req)
        (String.intercalate " " es) s "youtube" env.now).2 := by
  obtain ⟨li, p, dl, trc, sm, now⟩ := env
  simp only at hl hsm ⊢
  subst hl; subst hsm
  have hget : get_youtube_transcript (.ok tracks) =
      some (String.intercalate " " es, tr.language_code) := by
    simp [get_youtube_transcript, get_youtube_transcript_body, hfind, hfetch]
  simp [summarize_video, hget, truthyStr, hne, hreq, finishRun]
  exact ⟨_, _, ⟨rfl, rfl⟩, rfl, rfl, rfl⟩

/-- Witness for the amended C1: a concrete captioned run returns a
"youtube"-sourced result and leaves the probed flag false. -/
theorem captioned_nonempty_skips_duration_policy_witness :
    ∃ file st2,
      summarize_video "abc123"
          ⟨.ok [⟨false, "en", .ok ["hello", "there"]⟩], .ok (some 700) none, .ok (), .ok "t",
            .ok "nice summary", ⟨2025, 1, 2, 3, 4, 5, 6⟩⟩
          ⟨false, [], false⟩ =
        (.ok "abc123" "youtube" "nice summary" file, st2) ∧
      st2.probed = false ∧ st2.scratch = false ∧
      st2.store = (save_transcript [] "abc123" "hello there" "nice summary" "youtube"
        ⟨2025, 1, 2, 3, 4, 5, 6⟩).2 := by
  exact captioned_nonempty_skips_duration_policy "abc123"
    ⟨.ok [⟨false, "en", .ok ["hello", "there"]⟩], .ok (some 700) none, .ok (), .ok "t",
      .ok "nice summary", ⟨2025, 1, 2, 3, 4, 5, 6⟩⟩
    ⟨false, [], false⟩ [⟨false, "en", .ok ["hello", "there"]⟩]
    ⟨false, "en", .ok ["hello", "there"]⟩ ["hello", "there"] "nice summary"
    (by decide) rfl rfl rfl (by decide) rfl

/-- Counterexample to claim C3 as stated: a summarization failure does
NOT become a 500 with the message as `detail` — `summarize_text` is
called outside the `try` block (main.py line 172), so the exception
escapes the handler uncaught (FastAPI's generic internal error), which
is a different outcome from `HTTPException(500, "boom")`. -/
theorem summarize_failure_unhandled_cex :
    summarize_video "abc123"
        ⟨.ok [⟨false, "en", .ok ["hi"]⟩], .failure, .ok (), .ok "t", .error "boom",
          ⟨2025, 1, 2, 3, 4, 5, 6⟩⟩
        ⟨false, [], false⟩ =
      (.unhandled "boom", ⟨false, [], false⟩) ∧
    Result.unhandled "boom" ≠ Result.httpError 500 "boom" := by
  decide

/-- Claim C3 (amended): on the fallback path, a failure of the audio
download or of the transcription call produces a 500 whose `detail` is
the underlying failure's message verbatim (no redaction); a failure of
the summarization call instead escapes the handler as an uncaught
exception carrying the message (surfaced by the framework as a generic
internal error, not as a verbatim `detail`). -/
theorem upstream_failure_status (req : String) (env : Env) (st : St) (m t : String)
    (hreq : pyStrip req ≠ "")
    (hfb : truthyStr (Option.map Prod.fst (get_youtube_transcript env.listing)) = false)
    (hdur : ¬((get_video_info env.probe).1 ≠ 0 ∧ (get_video_info env.probe).1 > 600)) :
    (env.download = .error m →
      summarize_video req env st = (.httpError 500 m, { st with probed := true })) ∧
    (env.download = .ok () → env.transcribe = .error m →
      summarize_video req env st =
        (.httpError 500 m, { st with probed := true, scratch := true })) ∧
    (env.download = .ok () → env.transcribe = .ok t → env.summarize = .error m →
      (summarize_video req env st).1 = .unhandled m) := by
  obtain ⟨li, p, dl, trc, sm, now⟩ := env
  simp only at hfb hdur ⊢
  refine ⟨?_, ?_, ?_⟩
  · intro hdl
    subst hdl
    simp [summarize_video, hfb, if_neg hdur, hreq]
  · intro hdl htr
    subst hdl; subst htr
    simp [summarize_video, hfb, if_neg hdur, hreq]
  · intro hdl htr hsm
    subst hdl; subst htr; subst hsm
    simp [summarize_video, hfb, if_neg hdur, hreq, finishRun]

/-- Witness for the amended C3 at concrete runs: a download failure and
a transcription failure each yield a 500 with the verbatim message; a
summarization failure yields the uncaught-exception outcome. -/
theorem upstream_failure_status_witness :
    summarize_video "v1"
        ⟨.ok [], .ok (some 10) none, .error "yt-dlp exited 1", .ok "t", .ok "s",
          ⟨2025, 1, 2, 3, 4, 5, 6⟩⟩
        ⟨false, [], false⟩ =
      (.httpError 500 "yt-dlp exited 1", ⟨false, [], true⟩) ∧
    summarize_video "v1"
        ⟨.ok [], .ok (some 10) none, .ok (), .error "whisper down", .ok "s",
          ⟨2025, 1, 2, 3, 4, 5, 6⟩⟩
        ⟨false, [], false⟩ =
      (.httpError 500 "whisper down", ⟨true, [], true⟩) ∧
    (summarize_video "v1"
        ⟨.ok [], .ok (some 10) none, .ok (), .ok "t", .error "gpt down",
          ⟨2025, 1, 2, 3, 4, 5, 6⟩⟩
        ⟨false, [], false⟩).1 = .unhandled "gpt down" := by
  refine ⟨?_, ?_, ?_⟩
  · exact ((upstream_failure_status "v1"
      ⟨.ok [], .ok (some 10) none, .error "yt-dlp exited 1", .ok "t", .ok "s",
        ⟨2025, 1, 2, 3, 4, 5, 6⟩⟩
      ⟨false, [], false⟩ "yt-dlp exited 1" "t" (by decide) (by decide) (by decide)).1
      rfl).trans (by decide)
  · exact ((upstream_failure_status "v1"
      ⟨.ok [], .ok (some 10) none, .ok (), .error "whisper down", .ok "s",
        ⟨2025, 1, 2, 3, 4, 5, 6⟩⟩
      ⟨false, [], false⟩ "whisper down" "t" (by decide) (by decide) (by decide)).2.1
      rfl rfl).trans (by decide)
  · exact (upstream_failure_status "v1"
      ⟨.ok [], .ok (some 10) none, .ok (), .ok "t", .error "gpt down",
        ⟨2025, 1, 2, 3, 4, 5, 6⟩⟩
      ⟨false, [], false⟩ "gpt down" "t" (by decide) (by decide) (by decide)).2.2
      rfl rfl rfl

/-! ### Claims about persistence -/

/-- Appending distributes over `String.data` (definitional). -/
theorem data_append (a b : String) : (a ++ b).data = a.data ++ b.data := rfl

/-- Strings with equal code-point lists are equal. -/
theorem data_inj {a b : String} (h : a.data = b.data) : a = b :=
  congrArg String.mk h

/-- Looking up a key in the key-replacing map used by `writeFile` finds
the new contents when the key occurs. -/
theorem lookup_map_replace (s : Store) (f c : String)
    (h : (s.any fun p => p.1 = f) = true) :
    lookupFile (List.map (fun p => if p.1 = f then (f, c) else p) s) f = some c := by
  induction s with
  | nil => simp at h
  | cons p ps ih =>
    by_cases hp : p.1 = f
    · simp [lookupFile, hp]
    · have h' : (ps.any fun p => p.1 = f) = true := by simpa [hp] using h
      simp [lookupFile, hp, ih h']

/-- Looking up a key in the key-replacing map leaves other keys as
before. -/
theorem lookup_map_replace_other (s : Store) (f g c : String) (hg : g ≠ f) :
    lookupFile (List.map (fun p => if p.1 = f then (f, c) else p) s) g = lookupFile s g := by
  induction s with
  | nil => rfl
  | cons p ps ih =>
    by_cases hp : p.1 = f
    · have h1 : ¬(f = g) := fun h => hg h.symm
      have h2 : ¬(p.1 = g) := by rw [hp]; exact h1
      simp [lookupFile, hp, h1, h2, ih]
    · by_cases hq : p.1 = g <;> simp [lookupFile, hp, hq, hg, ih]

/-- Appending a fresh record makes it retrievable. -/
theorem lookup_append_rec (s : Store) (f c : String)
    (h : (s.any fun p => p.1 = f) = false) :
    lookupFile (s ++ [(f, c)]) f = some c := by
  induction s with
  | nil => simp [lookupFile]
  | cons p ps ih =>
    simp only [List.any_cons, Bool.or_eq_false_iff, decide_eq_false_iff_not] at h
    simp only [List.cons_append, lookupFile, h.1, if_false]
    exact ih (by simpa using h.2)

/-- Appending a record for one key does not affect other keys. -/
theorem lookup_append_rec_other (s : Store) (f g c : String) (hg : g ≠ f) :
    lookupFile (s ++ [(f, c)]) g = lookupFile s g := by
  induction s with
  | nil =>
    have h1 : ¬(f = g) := fun h => hg h.symm
    simp [lookupFile, h1]
  | cons p ps ih =>
    by_cases hq : p.1 = g <;> simp [lookupFile, hq, ih]

/-- Reading back the name just written yields the written contents. -/
theorem lookupFile_writeFile_self (s : Store) (f c : String) :
    lookupFile (writeFile s f c) f = some c := by
  unfold writeFile
  cases hb : (s.any fun p => p.1 = f) with
  | true =>
    rw [if_pos rfl]
    exact lookup_map_replace s f c hb
  | false =>
    rw [if_neg (by simp)]
    exact lookup_append_rec s f c hb

/-- Writing one name leaves every other name's contents unchanged. -/
theorem lookupFile_writeFile_other (s : Store) (f g c : String) (hg : g ≠ f) :
    lookupFile (writeFile s f c) g = lookupFile s g := by
  unfold writeFile
  split
  · exact lookup_map_replace_other s f g c hg
  · exact lookup_append_rec_other s f g c hg

/-- The second-resolution timestamp determines the stored filename for
a fixed identifier. -/
theorem fname_inj (vid ts1 ts2 : String)
    (h : vid ++ "_" ++ ts1 ++ ".txt" = vid ++ "_" ++ ts2 ++ ".txt") : ts1 = ts2 := by
  have hd := congrArg String.data h
  exact data_inj (by simpa [data_append, List.append_assoc] using hd)

/-- Counterexample to claim C8 as stated: two sequential successful
requests for the same identifier whose wall-clock instants differ only
below a second (distinct `datetime.now()` values) produce the SAME
storage path, and the second `open(path, "w")` overwrites the first
record — a stored record IS overwritten. -/
theorem same_second_overwrite_cex :
    (save_transcript [] "vid" "T1" "S1" "youtube" ⟨2025, 1, 2, 3, 4, 5, 0⟩).1 =
      (save_transcript (save_transcript [] "vid" "T1" "S1" "youtube" ⟨2025, 1, 2, 3, 4, 5, 0⟩).2
        "vid" "T2" "S2" "whisper" ⟨2025, 1, 2, 3, 4, 5, 999999⟩).1 ∧
    (save_transcript (save_transcript [] "vid" "T1" "S1" "youtube" ⟨2025, 1, 2, 3, 4, 5, 0⟩).2
        "vid" "T2" "S2" "whisper" ⟨2025, 1, 2, 3, 4, 5, 999999⟩).2 =
      [("vid_20250102_030405.txt", transcriptContent "T2" "S2" "whisper")] ∧
    (⟨2025, 1, 2, 3, 4, 5, 0⟩ : DateTime) ≠ ⟨2025, 1, 2, 3, 4, 5, 999999⟩ := by
  decide

/-- Claim C8 (amended): two sequential calls with the same identifier
produce two distinct StoredRecords — distinct paths, both records
present afterwards with their own contents, the first not overwritten —
exactly when their second-resolution formatted timestamps differ; calls
whose instants fall in the same formatted second reuse one path, and
the second write replaces the first record. -/
theorem distinct_timestamps_distinct_records (store : Store)
    (vid T1 S1 O1 T2 S2 O2 : String) (t1 t2 : DateTime)
    (hts : strftime_ts t1 ≠ strftime_ts t2) :
    (save_transcript store vid T1 S1 O1 t1).1 ≠
      (save_transcript (save_transcript store vid T1 S1 O1 t1).2 vid T2 S2 O2 t2).1 ∧
    lookupFile (save_transcript (save_transcript store vid T1 S1 O1 t1).2 vid T2 S2 O2 t2).2
        (vid ++ "_" ++ strftime_ts t1 ++ ".txt") = some (transcriptContent T1 S1 O1) ∧
    lookupFile (save_transcript (save_transcript store vid T1 S1 O1 t1).2 vid T2 S2 O2 t2).2
        (vid ++ "_" ++ strftime_ts t2 ++ ".txt") = some (transcriptContent T2 S2 O2) := by
  have hf : (vid ++ "_" ++ strftime_ts t1 ++ ".txt") ≠
      (vid ++ "_" ++ strftime_ts t2 ++ ".txt") :=
    fun h => hts (fname_inj _ _ _ h)
  refine ⟨?_, ?_, ?_⟩
  · intro h
    have hd := congrArg String.data h
    simp only [save_transcript] at hd
    exact hts (data_inj (by simpa [data_append, List.append_assoc] using hd))
  · show lookupFile (writeFile (writeFile store _ _) _ _) _ = _
    rw [lookupFile_writeFile_other _ _ _ _ hf, lookupFile_writeFile_self]
  · exact lookupFile_writeFile_self ..

/-- Witness for the amended C8: saves one second apart keep distinct
paths and both records. -/
theorem distinct_timestamps_distinct_records_witness :
    (save_transcript [] "vid" "T1" "S1" "youtube" ⟨2025, 1, 2, 3, 4, 5, 0⟩).1 ≠
      (save_transcript (save_transcript [] "vid" "T1" "S1" "youtube" ⟨2025, 1, 2, 3, 4, 5, 0⟩).2
        "vid" "T2" "S2" "whisper" ⟨2025, 1, 2, 3, 4, 6, 0⟩).1 ∧
    lookupFile (save_transcript (save_transcript [] "vid" "T1" "S1" "youtube"
        ⟨2025, 1, 2, 3, 4, 5, 0⟩).2 "vid" "T2" "S2" "whisper" ⟨2025, 1, 2, 3, 4, 6, 0⟩).2
        ("vid" ++ "_" ++ strftime_ts ⟨2025, 1, 2, 3, 4, 5, 0⟩ ++ ".txt") =
      some (transcriptContent "T1" "S1" "youtube") ∧
    lookupFile (save_transcript (save_transcript [] "vid" "T1" "S1" "youtube"
        ⟨2025, 1, 2, 3, 4, 5, 0⟩).2 "vid" "T2" "S2" "whisper" ⟨2025, 1, 2, 3, 4, 6, 0⟩).2
        ("vid" ++ "_" ++ strftime_ts ⟨2025, 1, 2, 3, 4, 6, 0⟩ ++ ".txt") =
      some (transcriptContent "T2" "S2" "whisper") := by
  exact distinct_timestamps_distinct_records [] "vid" "T1" "S1" "youtube" "T2" "S2" "whisper"
    ⟨2025, 1, 2, 3, 4, 5, 0⟩ ⟨2025, 1, 2, 3, 4, 6, 0⟩ (by decide)

/-! ### Claims about the listing endpoint -/

/-- Code-point comparison is irreflexive. -/
theorem lexLt_irrefl (a : List Char) : lexLt a a = false := by
  induction a with
  | nil => rfl
  | cons c cs ih => simp [lexLt, lt_irrefl, ih]

/-- Code-point comparison is transitive. -/
theorem lexLt_trans {a b c : List Char} (h1 : lexLt a b = true)
    (h2 : lexLt b c = true) : lexLt a c = true := by
  induction a generalizing b c with
  | nil =>
    cases c with
    | nil =>
      cases b <;> simp [lexLt] at h2
    | cons c0 cs => simp [lexLt]
  | cons a0 as ih =>
    cases b with
    | nil => simp [lexLt] at h1
    | cons b0 bs =>
      cases c with
      | nil => simp [lexLt] at h2
      | cons c0 cs =>
        simp only [lexLt] at h1 h2 ⊢
        by_cases hab : a0 < b0
        · by_cases hbc : b0 < c0
          · simp [lt_trans hab hbc]
          · by_cases hcb : c0 < b0
            · simp [hbc, hcb] at h2
            · have heq : b0 = c0 := le_antisymm (le_of_not_lt hcb) (le_of_not_lt hbc)
              subst heq
              simp [hab]
        · by_cases hba : b0 < a0
          · simp [hab, hba] at h1
          · have heq : a0 = b0 := le_antisymm (le_of_not_lt hba) (le_of_not_lt hab)
            subst heq
            simp only [hab, if_false, lt_irrefl] at h1
            by_cases hac : a0 < c0
            · simp [hac]
            · simp only [hac, if_false] at h2 ⊢
              by_cases hca : c0 < a0
              · simp [hca] at h2
              · simp only [hca, if_false] at h2 ⊢
                exact ih h1 h2

/-- Code-point comparison is connex: if `a` is not below `b` then `b`
is below `a` or they are equal. -/
theorem lexLt_connex {a b : List Char} (h : lexLt a b = false) :
    lexLt b a = true ∨ a = b := by
  induction a generalizing b with
  | nil =>
    cases b with
    | nil => right; rfl
    | cons b0 bs => simp [lexLt] at h
  | cons a0 as ih =>
    cases b with
    | nil => left; simp [lexLt]
    | cons b0 bs =>
      simp only [lexLt] at h ⊢
      by_cases hab : a0 < b0
      · simp [hab] at h
      · by_cases hba : b0 < a0
        · left; simp [hba]
        · have heq : a0 = b0 := le_antisymm (le_of_not_lt hba) (le_of_not_lt hab)
          subst heq
          simp only [hab, if_false, lt_irrefl] at h ⊢
          rcases ih h with h' | h'
          · left; exact h'
          · right; simp [h']

/-- The "not below" relation used for descending sortedness is
transitive. -/
theorem lexLt_false_trans {a b c : List Char} (h1 : lexLt a b = false)
    (h2 : lexLt b c = false) : lexLt a c = false := by
  cases hv : lexLt a c with
  | false => rfl
  | true =>
    rcases lexLt_connex h1 with hba | heq
    · rw [lexLt_trans hba hv] at h2
      exact h2
    · rw [← heq, hv] at h2
      exact h2

/-- Membership in `insertDesc`. -/
theorem mem_insertDesc {x y : String} {l : List String} :
    y ∈ insertDesc x l ↔ y = x ∨ y ∈ l := by
  induction l with
  | nil => simp [insertDesc]
  | cons z zs ih =>
    unfold insertDesc
    split
    · simp [List.mem_cons]
    · simp only [List.mem_cons, ih]
      tauto

/-- Inserting into a descending-sorted list keeps it descending. -/
theorem sorted_insertDesc {x : String} {l : List String}
    (h : List.Sorted (fun a b : String => lexLt a.data b.data = false) l) :
    List.Sorted (fun a b : String => lexLt a.data b.data = false) (insertDesc x l) := by
  induction l with
  | nil => simp [insertDesc]
  | cons z zs ih =>
    have hz := (List.sorted_cons.mp h).1
    have hzs := (List.sorted_cons.mp h).2
    unfold insertDesc
    split
    · rename_i hzx
      rw [List.sorted_cons]
      refine ⟨?_, h⟩
      intro b hb
      rcases List.mem_cons.mp hb with rfl | hb'
      · cases hv : lexLt x.data b.data with
        | false => rfl
        | true =>
          have h2 := lexLt_trans hzx hv
          rw [lexLt_irrefl] at h2
          exact h2.symm
      · have hzb := hz b hb'
        cases hv : lexLt x.data b.data with
        | false => rfl
        | true =>
          rw [lexLt_trans hzx hv] at hzb
          exact hzb
    · rename_i hzx
      rw [List.sorted_cons]
      constructor
      · intro b hb
        rcases mem_insertDesc.mp hb with rfl | hb'
        · simpa using hzx
        · exact hz b hb'
      · exact ih hzs

/-- The descending sort really is descending-sorted. -/
theorem sorted_sortDesc (l : List String) :
    List.Sorted (fun a b : String => lexLt a.data b.data = false) (sortDesc l) := by
  induction l with
  | nil => simp [sortDesc]
  | cons x xs ih => exact sorted_insertDesc ih

/-- The dashboard's entries carry exactly the sorted filenames. -/
theorem dashboard_filenames (store : Store) :
    List.map Entry.filename (dashboard store) = sortDesc (listdir store) := by
  unfold dashboard
  rw [List.map_map]
  exact List.map_id _

/-- Counterexample to claim C6 as stated: the dashboard sorts the
directory listing by FILENAME (`{video_id}_{timestamp}.txt`)
descending, not by storage time.  Identifier "b" is stored first (in
2024), identifier "a" second (in 2025); reverse chronological order
would list the 2025 record first, but the dashboard lists the "b" file
first because "b..." sorts above "a...".  The second conjunct records
that the first-listed record indeed has the strictly older timestamp. -/
theorem dashboard_not_reverse_chronological_cex :
    List.map Entry.filename (dashboard
        (save_transcript
          (save_transcript [] "b" "tb" "sb" "whisper" ⟨2024, 1, 1, 0, 0, 0, 0⟩).2
          "a" "ta" "sa" "youtube" ⟨2025, 1, 1, 0, 0, 0, 0⟩).2) =
      ["b_20240101_000000.txt", "a_20250101_000000.txt"] ∧
    lexLt (strftime_ts ⟨2024, 1, 1, 0, 0, 0, 0⟩).data
      (strftime_ts ⟨2025, 1, 1, 0, 0, 0, 0⟩).data = true := by
  decide

/-- Claim C6 (amended): the listing operation returns the stored
records' summaries ordered by filename (identifier, then second-
resolution timestamp) in DESCENDING lexicographic order.  This
coincides with reverse chronological order among records of a single
identifier, but not across identifiers. -/
theorem dashboard_sorted_desc_filename (store : Store) :
    List.Sorted (fun a b : String => lexLt a.data b.data = false)
      (List.map Entry.filename (dashboard store)) := by
  rw [dashboard_filenames]
  exact sorted_sortDesc _

/-! ### Claim C7: round-trip through storage and listing -/

/-- Splitting never yields an empty list of lines. -/
theorem splitLines_ne_nil (s : List Char) : splitLines s ≠ [] := by
  induction s with
  | nil => simp [splitLines]
  | cons c cs ih =>
    by_cases hc : c = '\n'
    · simp [splitLines, hc]
    · simp only [splitLines, hc, if_false]
      cases hs : splitLines cs <;> simp

/-- A newline-free text is a single line. -/
theorem splitLines_no_nl {A : List Char} (h : '\n' ∉ A) : splitLines A = [A] := by
  induction A with
  | nil => rfl
  | cons c cs ih =>
    have hc : ¬(c = '\n') := fun e => h (e ▸ List.mem_cons_self c cs)
    have hcs : '\n' ∉ cs := fun m => h (List.mem_cons_of_mem _ m)
    simp [splitLines, hc, ih hcs]

/-- A newline after a newline-free segment closes exactly one line. -/
theorem splitLines_append {A : List Char} (B : List Char) (h : '\n' ∉ A) :
    splitLines (A ++ '\n' :: B) = A :: splitLines B := by
  induction A with
  | nil => simp [splitLines]
  | cons c cs ih =>
    have hc : ¬(c = '\n') := fun e => h (e ▸ List.mem_cons_self c cs)
    have hcs : '\n' ∉ cs := fun m => h (List.mem_cons_of_mem _ m)
    simp [splitLines, hc, ih hcs]

/-- Stripping a string with no leading or trailing whitespace is the
identity. -/
theorem pyStrip_clean {s : String}
    (h1 : s.data.dropWhile Char.isWhitespace = s.data)
    (h2 : s.data.reverse.dropWhile Char.isWhitespace = s.data.reverse) :
    pyStrip s = s := by
  unfold pyStrip
  rw [h1, h2, List.reverse_reverse]

/-- Stripping a string that starts and ends with non-whitespace is the
identity. -/
theorem pyStrip_cons_end (a : Char) (mid : List Char) (b : Char)
    (ha : a.isWhitespace = false) (hb : b.isWhitespace = false) :
    pyStrip ⟨a :: (mid ++ [b])⟩ = ⟨a :: (mid ++ [b])⟩ := by
  unfold pyStrip
  show (⟨(((a :: (mid ++ [b])).dropWhile Char.isWhitespace).reverse.dropWhile
    Char.isWhitespace).reverse⟩ : String) = _
  rw [List.dropWhile_cons]
  simp only [ha, Bool.false_eq_true, if_false]
  have hrev : (a :: (mid ++ [b])).reverse = b :: (mid.reverse ++ [a]) := by
    simp
  rw [hrev, List.dropWhile_cons]
  simp only [hb, Bool.false_eq_true, if_false]
  rw [← hrev, List.reverse_reverse]

/-- Stripping one leading space off an otherwise stripped string. -/
theorem pyStrip_space_cons {O : String}
    (h1 : O.data.dropWhile Char.isWhitespace = O.data)
    (h2 : O.data.reverse.dropWhile Char.isWhitespace = O.data.reverse) :
    pyStrip ⟨' ' :: O.data⟩ = O := by
  unfold pyStrip
  show (⟨((((' ' :: O.data)).dropWhile Char.isWhitespace).reverse.dropWhile
    Char.isWhitespace).reverse⟩ : String) = _
  rw [List.dropWhile_cons]
  simp only [show (' ').isWhitespace = true from rfl, if_true]
  rw [h1, h2, List.reverse_reverse]

/-- A pattern matches at the very front of itself plus anything. -/
theorem hasLead_append_self (p r : List Char) : hasLead p (p ++ r) = true := by
  induction p with
  | nil => rfl
  | cons c cs ih => simp [hasLead, ih]

/-- A pattern matches itself. -/
theorem hasLead_refl (p : List Char) : hasLead p p = true := by
  have := hasLead_append_self p []
  simpa using this

/-- Branch equation of `pyReplaceAux` at a scan position (holds by
`rfl`; named for rewriting). -/
theorem pyReplaceAux_zero_cons (pat repl : List Char) (c : Char) (cs : List Char) :
    pyReplaceAux pat repl 0 (c :: cs) =
      if pat ≠ [] ∧ hasLead pat (c :: cs) then
        repl ++ pyReplaceAux pat repl (pat.length - 1) cs
      else c :: pyReplaceAux pat repl 0 cs := rfl

/-- Skipping exactly the length of a leading segment resumes the
replacement scan right after it. -/
theorem pyReplaceAux_skip (pat repl : List Char) (l rest : List Char) :
    pyReplaceAux pat repl l.length (l ++ rest) = pyReplaceAux pat repl 0 rest := by
  induction l with
  | nil => rfl
  | cons c cs ih => simpa [pyReplaceAux] using ih

/-- A replacement pattern found at the front is replaced, and scanning
continues after it. -/
theorem pyReplaceL_match_head (p : Char) (ps rest repl : List Char) :
    pyReplaceL (p :: ps) repl ((p :: ps) ++ rest) =
      repl ++ pyReplaceL (p :: ps) repl rest := by
  unfold pyReplaceL
  show pyReplaceAux (p :: ps) repl 0 (p :: (ps ++ rest)) = _
  rw [pyReplaceAux_zero_cons]
  rw [if_pos ⟨by simp, by simpa using hasLead_append_self (p :: ps) rest⟩]
  simp only [List.length_cons, Nat.add_sub_cancel]
  rw [pyReplaceAux_skip]

/-- If the pattern's first character never occurs, replacement is the
identity. -/
theorem pyReplaceL_no_head {p : Char} (ps repl : List Char) {s : List Char}
    (h : p ∉ s) : pyReplaceL (p :: ps) repl s = s := by
  induction s with
  | nil => rfl
  | cons c cs ih =>
    have hc : ¬(p = c) := fun e => h (e ▸ List.mem_cons_self c cs)
    have hcs : p ∉ cs := fun m => h (List.mem_cons_of_mem _ m)
    unfold pyReplaceL at ih ⊢
    rw [pyReplaceAux_zero_cons]
    rw [if_neg (by simp [hasLead, hc])]
    rw [ih hcs]

/-- Deleting a single character that occurs only at the very end. -/
theorem pyReplaceL_del_last (c : Char) {s : List Char} (h : c ∉ s) :
    pyReplaceL [c] [] (s ++ [c]) = s := by
  induction s with
  | nil =>
    unfold pyReplaceL
    show pyReplaceAux [c] [] 0 (c :: []) = []
    rw [pyReplaceAux_zero_cons]
    rw [if_pos ⟨by simp, by simp [hasLead]⟩]
    rfl
  | cons x xs ih =>
    have hx : ¬(c = x) := fun e => h (e ▸ List.mem_cons_self x xs)
    have hxs : c ∉ xs := fun m => h (List.mem_cons_of_mem _ m)
    unfold pyReplaceL at ih ⊢
    show pyReplaceAux [c] [] 0 (x :: (xs ++ [c])) = x :: xs
    rw [pyReplaceAux_zero_cons]
    rw [if_neg (by simp [hasLead, hx])]
    rw [ih hxs]

/-- Rebuilding a string from its own code points is the identity. -/
theorem string_eta (s : String) : (⟨s.data⟩ : String) = s := rfl

/-- Branch equation of `findSummary` (holds by `rfl`; named for
rewriting). -/
theorem findSummary_cons (l : String) (rest : List String) :
    findSummary (l :: rest) =
      if pyStartsWith l "Summary:" then pyStrip (rest.headD "") else findSummary rest := rfl

theorem parse_entry_transcriptContent (fname T S O : String)
    (hS_nl : '\n' ∉ S.data)
    (hS_l : S.data.dropWhile Char.isWhitespace = S.data)
    (hS_r : S.data.reverse.dropWhile Char.isWhitespace = S.data.reverse)
    (hO_nl : '\n' ∉ O.data) (hO_lb : '[' ∉ O.data) (hO_rb : ']' ∉ O.data)
    (hO_l : O.data.dropWhile Char.isWhitespace = O.data)
    (hO_r : O.data.reverse.dropWhile Char.isWhitespace = O.data.reverse) :
    parse_entry fname (transcriptContent T S O) = ⟨fname, O, S⟩ := by
  have hL0nl : '\n' ∉ '[' :: (("Source: ".data ++ O.data) ++ [']']) := by
    intro hm
    rcases List.mem_cons.mp hm with he | hm2
    · exact absurd he (by decide)
    · rcases List.mem_append.mp hm2 with h1 | h2
      · rcases List.mem_append.mp h1 with h3 | h4
        · exact absurd h3 (by decide)
        · exact hO_nl h4
      · exact absurd h2 (by decide)
  have hdata : (transcriptContent T S O).data =
      ('[' :: (("Source: ".data ++ O.data) ++ [']'])) ++ '\n' ::
        (([] : List Char) ++ '\n' :: ("Summary:".data ++ '\n' ::
          (S.data ++ '\n' :: (([] : List Char) ++ '\n' ::
            ("---".data ++ '\n' :: (([] : List Char) ++ '\n' :: T.data)))))) := by
    simp only [transcriptContent, data_append, List.append_assoc, List.cons_append,
      List.nil_append, List.singleton_append]
  have hsplit : splitLines (transcriptContent T S O).data =
      ('[' :: (("Source: ".data ++ O.data) ++ [']'])) :: ([] : List Char) ::
        "Summary:".data :: S.data :: ([] : List Char) :: "---".data ::
        ([] : List Char) :: splitLines T.data := by
    rw [hdata, splitLines_append _ hL0nl,
      splitLines_append _ (List.not_mem_nil _),
      splitLines_append _ (by decide : '\n' ∉ "Summary:".data),
      splitLines_append _ hS_nl,
      splitLines_append _ (List.not_mem_nil _),
      splitLines_append _ (by decide : '\n' ∉ "---".data),
      splitLines_append _ (List.not_mem_nil _)]
  have hfirst : pyStrip ⟨'[' :: (("Source: ".data ++ O.data) ++ [']'])⟩ =
      ⟨'[' :: (("Source: ".data ++ O.data) ++ [']'])⟩ :=
    pyStrip_cons_end '[' ("Source: ".data ++ O.data) ']' (by decide) (by decide)
  have hnotin1 : '[' ∉ ' ' :: (O.data ++ [']']) := by
    intro hm
    rcases List.mem_cons.mp hm with he | hm2
    · exact absurd he (by decide)
    · rcases List.mem_append.mp hm2 with h1 | h2
      · exact hO_lb h1
      · exact absurd h2 (by decide)
  have hnotin2 : ']' ∉ ' ' :: O.data := by
    intro hm
    rcases List.mem_cons.mp hm with he | hm2
    · exact absurd he (by decide)
    · exact hO_rb hm2
  have hrep1 : pyReplace ⟨'[' :: (("Source: ".data ++ O.data) ++ [']'])⟩ "[Source:" "" =
      ⟨' ' :: (O.data ++ [']'])⟩ := by
    unfold pyReplace
    show (⟨pyReplaceL ('[' :: "Source:".data) []
      (('[' :: "Source:".data) ++ (' ' :: (O.data ++ [']'])))⟩ : String) = _
    rw [pyReplaceL_match_head]
    rw [pyReplaceL_no_head _ _ hnotin1]
    rfl
  have hrep2 : pyReplace ⟨' ' :: (O.data ++ [']'])⟩ "]" "" = ⟨' ' :: O.data⟩ := by
    unfold pyReplace
    show (⟨pyReplaceL [']'] [] ((' ' :: O.data) ++ [']'])⟩ : String) = _
    rw [pyReplaceL_del_last ']' hnotin2]
  have hstrip2 : pyStrip ⟨' ' :: O.data⟩ = O := pyStrip_space_cons hO_l hO_r
  simp only [parse_entry, hsplit, List.map_cons, List.headD_cons, List.tail_cons,
    string_eta]
  rw [hfirst, hrep1, hrep2, hstrip2]
  rw [findSummary_cons, if_neg (by decide), findSummary_cons,
    if_pos (by decide), List.headD_cons]
  rw [pyStrip_clean hS_l hS_r]

/-- Counterexample to claim C7 as stated: the round-trip is NOT an
exact string match for every stored record.  A multi-line summary is
truncated to its first line by the dashboard's single `readline` after
the `"Summary:"` marker, and a source containing `"]"` is mangled by
the `replace("]", "")` call. -/
theorem roundtrip_mangles_cex :
    dashboard (save_transcript [] "v" "full text" "line1\nline2" "youtube"
        ⟨2025, 1, 2, 3, 4, 5, 0⟩).2 =
      [⟨"v_20250102_030405.txt", "youtube", "line1"⟩] ∧
    ("line1" : String) ≠ "line1\nline2" ∧
    dashboard (save_transcript [] "v" "t" "s" "a]b" ⟨2025, 1, 2, 3, 4, 5, 0⟩).2 =
      [⟨"v_20250102_030405.txt", "ab", "s"⟩] ∧
    ("ab" : String) ≠ "a]b" := by
  decide

/-- Claim C7 (amended): for every StoredRecord written for identifier X
with summary S and source O, where S is a single line with no leading
or trailing whitespace, and O contains no newline, no `'['`, no `']'`,
and no leading or trailing whitespace (all true of the values this
program writes: "youtube"/"whisper" sources and any single-line
summary), the listing yields for that record's filename an entry whose
parsed source equals O and whose parsed summary equals S as exact
string matches. -/
theorem stored_record_roundtrip (store : Store) (X T S O : String) (now : DateTime)
    (e : Entry)
    (hS_nl : '\n' ∉ S.data)
    (hS_l : S.data.dropWhile Char.isWhitespace = S.data)
    (hS_r : S.data.reverse.dropWhile Char.isWhitespace = S.data.reverse)
    (hO_nl : '\n' ∉ O.data) (hO_lb : '[' ∉ O.data) (hO_rb : ']' ∉ O.data)
    (hO_l : O.data.dropWhile Char.isWhitespace = O.data)
    (hO_r : O.data.reverse.dropWhile Char.isWhitespace = O.data.reverse)
    (hmem : e ∈ dashboard (save_transcript store X T S O now).2)
    (hname : e.filename = X ++ "_" ++ strftime_ts now ++ ".txt") :
    e.source = O ∧ e.summary = S := by
  obtain ⟨f, hf, he⟩ := List.mem_map.mp hmem
  have hef : e.filename = f := by rw [← he]; rfl
  have hfn : f = X ++ "_" ++ strftime_ts now ++ ".txt" := hef.symm.trans hname
  subst hfn
  have hlook : lookupFile (save_transcript store X T S O now).2
      (X ++ "_" ++ strftime_ts now ++ ".txt") = some (transcriptContent T S O) := by
    simp only [save_transcript]
    exact lookupFile_writeFile_self ..
  rw [← he, hlook]
  rw [show (some (transcriptContent T S O)).getD "" = transcriptContent T S O from rfl]
  rw [parse_entry_transcriptContent _ T S O hS_nl hS_l hS_r hO_nl hO_lb hO_rb hO_l hO_r]
  exact ⟨rfl, rfl⟩

/-- Witness for the amended C7: a concrete clean record round-trips
exactly. -/
theorem stored_record_roundtrip_witness :
    (Entry.mk "v_20250102_030405.txt" "youtube" "a concise summary").source = "youtube" ∧
    (Entry.mk "v_20250102_030405.txt" "youtube" "a concise summary").summary =
      "a concise summary" := by
  exact stored_record_roundtrip [] "v" "full text" "a concise summary" "youtube"
    ⟨2025, 1, 2, 3, 4, 5, 0⟩ ⟨"v_20250102_030405.txt", "youtube", "a concise summary"⟩
    (by decide) (by decide) (by decide) (by decide) (by decide) (by decide)
    (by decide) (by decide) (by decide) rfl
